import Mathlib

set_option linter.unreachableTactic false
set_option linter.unusedTactic false
set_option linter.unnecessarySeqFocus false
set_option linter.unusedVariables false

/-!
Verification of the sotkalib utility library.

This file gives a shallow embedding, in Lean 4, of the parts of sotkalib that
carry algorithmic content, and proves properties of that embedding:

* the structural type-compatibility relation `compatible` of
  `sotkalib/type/iface/_compat.py` (unions, generics, subclassing, protocols);
* the variadic-absorption rule `_missing_pattr` of `sotkalib/type/_checkers.py`;
* the two code paths of the protocol-conformance driver
  (`implements` / `_implements_early` of `sotkalib/type/iface/_impl.py`);
* the Redis context lock of `sotkalib/redis/lock.py` and the Lua-scripted
  `DistributedLock` of `sotkalib/redis/locker.py`;
* the retry loop of `sotkalib/http/client_session.py`;
* the JSON-safe serializer of `sotkalib/json/dump.py`;
* the copy-on-first-write builder methods of `DistributedLock` and `RedisLRU`.

Modelling conventions: Python classes, protocol classes, type variables and
other opaque runtime objects are identified by natural-number ids; the ambient
reflection facts (`issubclass`, the result of `implements(…, early=True)`) are
collected in a `World` record.  Python floats are modelled as rationals.
-/

/-- A Python type annotation, as the checker in
`sotkalib/type/iface/_compat.py` observes it through `typing.get_origin` and
`typing.get_args`:

* `any` is `typing.Any`;
* `cls i` is a concrete (non-protocol) class object with id `i`
  (`get_origin` is `None`, `get_args` is `()`);
* `proto p` is a protocol class (`_is_protocol` set, not `typing.Protocol`
  itself) with id `p`;
* `var i` is an annotation that is not a class and has no origin, e.g. a
  `TypeVar` (`isinstance(·, type)` is false, `get_origin` is `None`);
* `generic o args` is a parameterized or bare alias whose `get_origin` is the
  class with id `o` and whose `get_args` is `args` (so `list[int]` has one
  argument and `typing.List` has none);
* `union args` is a `typing.Union`/`types.UnionType` with members `args`.

Class ids and protocol ids live in one namespace, so a generic alias can have
a protocol class as its origin. -/
inductive Ann : Type where
  | any : Ann
  | cls (id : Nat) : Ann
  | proto (id : Nat) : Ann
  | var (id : Nat) : Ann
  | generic (origin : Nat) (args : List Ann) : Ann
  | union (args : List Ann) : Ann

/-- The ambient reflection facts the compatibility checker consults.

* `sub h w` is Python `issubclass(h, w)` on the class objects with ids `h`
  and `w` (total here; the `try/except TypeError` guard around the Python call
  only matters for exotic metaclasses that the model does not represent);
* `impl c p` is `implements(c, p, early=True)` for the class (or protocol
  class) with id `c` against the protocol with id `p`, as called by
  `_proto_compat`;
* `implAny p` is `implements(typing.Any, p, early=True)`: since Python 3.11
  `typing.Any` is a class, so `_proto_compat` can reach this call when `Any`
  occurs as a union member under a protocol `want`. -/
structure World : Type where
  sub : Nat → Nat → Bool
  impl : Nat → Nat → Bool
  implAny : Nat → Bool

/-- Python object identity (`want_typ is have_typ`) on annotations.  Two
occurrences of the same class, protocol class or `TypeVar` object are the same
object; freshly constructed generic aliases and `X | Y` unions are distinct
objects even when structurally equal, so composite annotations compare
non-identical.  (`typing` caches some composite forms; every theorem below is
insensitive to that, because the structural branches of `compatible` agree
with the identity branch on identical inputs.) -/
def identEq : Ann → Ann → Bool
  | .any, .any => true
  | .cls a, .cls b => a == b
  | .proto a, .proto b => a == b
  | .var a, .var b => a == b
  | _, _ => false

/-- Predicate `_is_proto` of `_compat.py`: a class object with `_is_protocol` set. -/
def isProtoA : Ann → Bool
  | .proto _ => true
  | _ => false

/-- Test `_is_union(get_origin(·))` of `_compat.py`. -/
def isUnionA : Ann → Bool
  | .union _ => true
  | _ => false

/-- Test `isinstance(·, type)`: class objects and protocol classes are types;
`TypeVar`s, generic aliases and unions are not.  (`typing.Any` is a class
since Python 3.11, but `compatible` returns on `Any` before ever consulting
`isinstance`, so the choice made here is not observable.) -/
def isTypeA : Ann → Bool
  | .cls _ => true
  | .proto _ => true
  | _ => false

/-- Identity test against `typing.Any`. -/
def isAnyA : Ann → Bool
  | .any => true
  | _ => false

mutual

/-- Model of `_proto_compat` of `_compat.py`: `want` is a protocol id; a union `have`
must have every member compatible, a class (or protocol class) `have` is
checked with `implements(have, want, early=True)`, anything that is not a
type is rejected.  The `_COMPAT_CHECKING` cycle guard of the source only
fires on cyclic object graphs, which finite annotation trees never form, so
it is omitted here. -/
def proto_compat (W : World) (want : Nat) (h : Ann) : Bool :=
  match h with
  | .union args => proto_compat_all W want args
  | .cls c => W.impl c want
  | .proto p => W.impl p want
  | .any => W.implAny want
  | .var _ => false
  | .generic _ _ => false
termination_by sizeOf h

/-- Model of `all(_proto_compat(want, member) for member in shtyp.args)`. -/
def proto_compat_all (W : World) (want : Nat) (l : List Ann) : Bool :=
  match l with
  | [] => true
  | h :: t => proto_compat W want h && proto_compat_all W want t
termination_by sizeOf l

end

mutual

/-- Model of `compatible` of `sotkalib/type/iface/_compat.py`, the public structural
type-compatibility relation of the protocol checker.  The branch chain mirrors
the source line by line: identity / `Any`; protocol `want`; both unions;
union `have` only; union `want` only; same-origin generics; cross-origin
generics when `issubclass(have.origin, want.origin)`; parameterized `want`
against its own bare origin (`False`); bare `want` against a parameterization
of itself (`True`); `issubclass` on two concrete classes; fallback
`not strict`. -/
def compatible (W : World) (strict : Bool) (want_typ have_typ : Ann) : Bool :=
  if identEq want_typ have_typ || isAnyA want_typ || isAnyA have_typ then true
  else
    match want_typ, have_typ with
    | .proto p, h => proto_compat W p h
    | .union ws, .union hs => union_all_any W strict ws hs
    | w, .union hs => union_all_have W strict w hs
    | .union ws, h => union_any_want W strict ws h
    | .generic o1 ws, .generic o2 hs =>
        if o1 == o2 then generic_compat W strict ws hs
        else if W.sub o2 o1 then generic_compat W strict ws hs
        else !strict
    | .generic o _, .cls c => if o == c then false else !strict
    | .generic o _, .proto p => if o == p then false else !strict
    | .generic _ _, _ => !strict
    | .cls c, .generic o _ => if o == c then true else !strict
    | .cls c, .cls d => W.sub d c
    | .cls c, .proto p => W.sub p c
    | .cls _, _ => !strict
    | .var _, _ => !strict
    | .any, _ => true
termination_by sizeOf want_typ + sizeOf have_typ
decreasing_by all_goals (first | (simp_wf; omega) | simp_wf)

/-- Both-unions branch of `compatible`:
`all(any(compatible(p, t) for t in shtyp.args) for p in swtyp.args)` —
every member of the `want` union must find a compatible member in `have`. -/
def union_all_any (W : World) (strict : Bool) (ws hs : List Ann) : Bool :=
  match ws with
  | [] => true
  | w :: rest => union_any_have W strict w hs && union_all_any W strict rest hs
termination_by sizeOf ws + sizeOf hs
decreasing_by all_goals (first | (simp_wf; omega) | simp_wf)

/-- Model of `any(compatible(p, t) for t in shtyp.args)` for one `want` member. -/
def union_any_have (W : World) (strict : Bool) (w : Ann) (hs : List Ann) : Bool :=
  match hs with
  | [] => false
  | h :: rest => compatible W strict w h || union_any_have W strict w rest
termination_by sizeOf w + sizeOf hs
decreasing_by all_goals (first | (simp_wf; omega) | simp_wf)

/-- Union `have` with non-union `want`:
`all(compatible(want_typ, h) for h in shtyp.args)`. -/
def union_all_have (W : World) (strict : Bool) (want_typ : Ann) (hs : List Ann) : Bool :=
  match hs with
  | [] => true
  | h :: rest => compatible W strict want_typ h && union_all_have W strict want_typ rest
termination_by sizeOf want_typ + sizeOf hs
decreasing_by all_goals (first | (simp_wf; omega) | simp_wf)

/-- Union `want` with non-union `have`:
`any(compatible(w, have_typ) for w in swtyp.args)`. -/
def union_any_want (W : World) (strict : Bool) (ws : List Ann) (have_typ : Ann) : Bool :=
  match ws with
  | [] => false
  | w :: rest => compatible W strict w have_typ || union_any_want W strict rest have_typ
termination_by sizeOf ws + sizeOf have_typ
decreasing_by all_goals (first | (simp_wf; omega) | simp_wf)

/-- Model of `_generic_compat` of `_compat.py`.  Asymmetric: a bare `want` accepts a
parameterized `have`, not the reverse; otherwise the type arguments are
compared pairwise (`zip` truncates to the shorter argument list, as
`zip(strict=False)` does). -/
def generic_compat (W : World) (strict : Bool) (ws hs : List Ann) : Bool :=
  if ws.isEmpty && !hs.isEmpty then true
  else if !ws.isEmpty && hs.isEmpty then false
  else generic_zip_all W strict ws hs
termination_by sizeOf ws + sizeOf hs + 1
decreasing_by all_goals (first | (simp_wf; omega) | simp_wf)

/-- Model of `all(compatible(w, h, strict=strict) for w, h in zip(swtyp.args, shtyp.args, strict=False))`. -/
def generic_zip_all (W : World) (strict : Bool) (ws hs : List Ann) : Bool :=
  match ws, hs with
  | w :: wr, h :: hr => compatible W strict w h && generic_zip_all W strict wr hr
  | _, _ => true
termination_by sizeOf ws + sizeOf hs
decreasing_by all_goals (first | (simp_wf; omega) | simp_wf)

end

/-- The one-member helper computes `List.any`. -/
theorem union_any_have_eq (W : World) (s : Bool) (w : Ann) (hs : List Ann) :
    union_any_have W s w hs = hs.any (fun h => compatible W s w h) := by
  induction hs with
  | nil => simp [union_any_have]
  | cons h t ih => simp [union_any_have, ih]

/-- The both-unions branch computes `want.args.all (fun w => have.args.any …)`. -/
theorem union_all_any_eq (W : World) (s : Bool) (ws hs : List Ann) :
    union_all_any W s ws hs = ws.all (fun w => hs.any (fun h => compatible W s w h)) := by
  induction ws with
  | nil => simp [union_all_any]
  | cons w t ih => simp [union_all_any, union_any_have_eq, ih]

/-- The union-`have` branch computes `List.all`. -/
theorem union_all_have_eq (W : World) (s : Bool) (w : Ann) (hs : List Ann) :
    union_all_have W s w hs = hs.all (fun h => compatible W s w h) := by
  induction hs with
  | nil => simp [union_all_have]
  | cons h t ih => simp [union_all_have, ih]

/-- The union-`want` branch computes `List.any`. -/
theorem union_any_want_eq (W : World) (s : Bool) (ws : List Ann) (h : Ann) :
    union_any_want W s ws h = ws.any (fun w => compatible W s w h) := by
  induction ws with
  | nil => simp [union_any_want]
  | cons w t ih => simp [union_any_want, ih]

/-- The pairwise generic-argument walk computes `List.all` over `List.zip`. -/
theorem generic_zip_all_eq (W : World) (s : Bool) (ws hs : List Ann) :
    generic_zip_all W s ws hs = (ws.zip hs).all (fun p => compatible W s p.1 p.2) := by
  induction ws generalizing hs with
  | nil => simp [generic_zip_all]
  | cons w wr ih =>
      cases hs with
      | nil => simp [generic_zip_all]
      | cons h hr => simp [generic_zip_all, ih]

example :
    compatible ⟨fun a b => a == b, fun _ _ => false, fun _ => false⟩ false
      (.union [.cls 1, .cls 0]) (.union [.cls 1, .cls 0, .cls 2]) = true := by
  simp [compatible, union_all_any, union_any_have, identEq, isAnyA]

/-- Relation `compatible` accepts everything when `want` is `typing.Any`. -/
theorem compatible_any_want (W : World) (s : Bool) (h : Ann) :
    compatible W s .any h = true := by
  rw [compatible.eq_def]
  simp [isAnyA]

/-- A small concrete world: ids 0, 1, 2, 3 stand for `int`, `str`, `float`,
`bool`; `issubclass` is reflexive plus `bool ⊂ int`; no protocol facts. -/
def W0 : World :=
  ⟨fun a b => a == b || (a == 3 && b == 0), fun _ _ => false, fun _ => false⟩

/-- World for the `Sequence[int]` / `list[int]` example: ids 10 = `list`,
11 = `collections.abc.Sequence`, 0 = `int`; `issubclass` is reflexive plus
`list ⊂ Sequence`. -/
def W1 : World :=
  ⟨fun a b => a == b || (a == 10 && b == 11), fun _ _ => false, fun _ => false⟩

/-- C1 (amended).  Union compatibility in the protocol checker's type
relation: when `want` and `have` are both unions, `compatible(want, have)`
returns true iff every member of the *want* union is compatible with at least
one member of the *have* union; and when `have` alone is a union (and `want`
is neither a union nor a protocol class), `compatible(want, have)` returns
true iff every member of `have` is compatible with `want`. -/
theorem C1_union_compatibility (W : World) (s : Bool) (ws hs : List Ann)
    (want_typ : Ann) (hw1 : isUnionA want_typ = false)
    (hw2 : isProtoA want_typ = false) :
    (compatible W s (.union ws) (.union hs)
      = ws.all (fun w => hs.any (fun h => compatible W s w h)))
    ∧ (compatible W s want_typ (.union hs)
      = hs.all (fun h => compatible W s want_typ h)) := by
  constructor
  · simp [compatible, identEq, isAnyA, union_all_any_eq]
  · cases want_typ with
    | any => simp [compatible_any_want]
    | proto p => simp [isProtoA] at hw2
    | union l => simp [isUnionA] at hw1
    | cls c => simp [compatible, identEq, isAnyA, union_all_have_eq]
    | var i => simp [compatible, identEq, isAnyA, union_all_have_eq]
    | generic o args => simp [compatible, identEq, isAnyA, union_all_have_eq]

/-- C1 counterexample.  The claim as stated (both unions compatible iff every
member of the **have** union is compatible with at least one member of the
**want** union) is false on the code: with `want = str | int` and
`have = str | int | float` (ids per `W0`), `compatible` returns `True`
— the repository test `test_have_broader_union` asserts exactly this — while
the member `float` of `have` is compatible with no member of `want`, so the
claimed coverage condition is `False`. -/
theorem C1_union_counterexample :
    (compatible W0 false (.union [.cls 1, .cls 0]) (.union [.cls 1, .cls 0, .cls 2])
      = true)
    ∧ (([Ann.cls 1, Ann.cls 0, Ann.cls 2].all
        (fun h => [Ann.cls 1, Ann.cls 0].any
          (fun w => compatible W0 false w h))) = false) := by
  constructor
  · simp [compatible, union_all_any, union_any_have, identEq, isAnyA, W0]
  · simp [compatible, identEq, isAnyA, W0]

/-- Witness for `C1_union_compatibility` at a concrete input. -/
theorem C1_union_compatibility_witness :
    (isUnionA (Ann.cls 0) = false) ∧ (isProtoA (Ann.cls 0) = false)
    ∧ ((compatible W0 false (.union [.cls 1, .cls 0]) (.union [.cls 1, .cls 0, .cls 2])
        = [Ann.cls 1, Ann.cls 0].all
            (fun w => [Ann.cls 1, Ann.cls 0, Ann.cls 2].any
              (fun h => compatible W0 false w h)))
      ∧ (compatible W0 false (.cls 0) (.union [.cls 0, .cls 3])
        = [Ann.cls 0, Ann.cls 3].all (fun h => compatible W0 false (.cls 0) h))) :=
  ⟨by simp [isUnionA], by simp [isProtoA],
    C1_union_compatibility W0 false [.cls 1, .cls 0] [.cls 1, .cls 0, .cls 2]
      (.cls 0) (by simp [isUnionA]) (by simp [isProtoA]) |>.1,
    C1_union_compatibility W0 false [.cls 1, .cls 0] [.cls 0, .cls 3]
      (.cls 0) (by simp [isUnionA]) (by simp [isProtoA]) |>.2⟩

/-- C2.  Cross-origin generics and subclass covariance: for parameterized
generic annotations whose origins are classes with
`issubclass(have.origin, want.origin)` (including equal origins, as
`issubclass` is reflexive), `compatible` is the pairwise compatibility of the
zipped type arguments; a bare class `want` accepts a parameterization of
itself as `have`; a parameterized `want` rejects its own bare origin as
`have`. -/
theorem C2_cross_origin_generics (W : World) (s : Bool) (o1 o2 c : Nat)
    (ws hs : List Ann) (hws : ws ≠ []) (hhs : hs ≠ [])
    (hsub : o1 = o2 ∨ W.sub o2 o1 = true) :
    (compatible W s (.generic o1 ws) (.generic o2 hs)
      = (ws.zip hs).all (fun p => compatible W s p.1 p.2))
    ∧ (compatible W s (.cls c) (.generic c hs) = true)
    ∧ (compatible W s (.generic c ws) (.cls c) = false) := by
  refine ⟨?_, ?_, ?_⟩
  · cases ws with
    | nil => exact absurd rfl hws
    | cons w wr =>
      cases hs with
      | nil => exact absurd rfl hhs
      | cons h hr =>
        by_cases ho : o1 = o2
        · subst ho
          simp [compatible, identEq, isAnyA, generic_compat, generic_zip_all_eq]
        · have hsub2 : W.sub o2 o1 = true := hsub.resolve_left ho
          simp [compatible, identEq, isAnyA, generic_compat, generic_zip_all_eq,
            ho, hsub2]
  · simp [compatible, identEq, isAnyA]
  · simp [compatible, identEq, isAnyA]

/-- Witness for `C2_cross_origin_generics`: `want = Sequence[int]`,
`have = list[int]` in the world `W1`. -/
theorem C2_cross_origin_generics_witness :
    (([Ann.cls 0] : List Ann) ≠ []) ∧ (W1.sub 10 11 = true)
    ∧ (compatible W1 false (.generic 11 [.cls 0]) (.generic 10 [.cls 0])
      = (([Ann.cls 0].zip [Ann.cls 0]).all (fun p => compatible W1 false p.1 p.2))) :=
  ⟨by simp, by simp [W1],
    (C2_cross_origin_generics W1 false 11 10 10 [.cls 0] [.cls 0]
      (by simp) (by simp) (Or.inr (by simp [W1]))).1⟩

/-- The guards of the four generic-shape branches of `compatible`
(`_compat.py` lines 93-113): equal origins; cross-origin
`issubclass(have.origin, want.origin)`; parameterized `want` against its own
bare origin; bare `want` against a parameterization of itself. -/
def genericRelA (W : World) (w h : Ann) : Bool :=
  match w, h with
  | .generic o1 _, .generic o2 _ => o1 == o2 || W.sub o2 o1
  | .generic o _, .cls c => o == c
  | .generic o _, .proto p => o == p
  | .cls c, .generic o _ => o == c
  | _, _ => false

/-- C9.  Permissive fallback of the public compatibility relation: for every
pair of annotations matched by none of the structural rules — not identical,
neither `Any`, `want` not a protocol, neither a union, none of the
generic-shape rules (equal/subclass origins, bare/parameterized special
cases), and not both concrete classes — `compatible` returns `True` with
`strict=False` and `False` with `strict=True`. -/
theorem C9_permissive_fallback (W : World) (want_typ have_typ : Ann)
    (h1 : identEq want_typ have_typ = false)
    (h2 : isAnyA want_typ = false) (h3 : isAnyA have_typ = false)
    (h4 : isProtoA want_typ = false)
    (h5 : isUnionA want_typ = false) (h6 : isUnionA have_typ = false)
    (h7 : genericRelA W want_typ have_typ = false)
    (h8 : (isTypeA want_typ && isTypeA have_typ) = false) :
    compatible W false want_typ have_typ = true
    ∧ compatible W true want_typ have_typ = false := by
  cases want_typ <;> cases have_typ <;>
    simp_all [compatible, identEq, isAnyA, isProtoA, isUnionA, isTypeA,
      genericRelA]

/-- Witness for `C9_permissive_fallback`: two distinct `TypeVar`s. -/
theorem C9_permissive_fallback_witness :
    (identEq (.var 0) (.var 1) = false) ∧ (isAnyA (Ann.var 0) = false)
    ∧ (isAnyA (Ann.var 1) = false) ∧ (isProtoA (Ann.var 0) = false)
    ∧ (isUnionA (Ann.var 0) = false) ∧ (isUnionA (Ann.var 1) = false)
    ∧ (genericRelA W0 (.var 0) (.var 1) = false)
    ∧ ((isTypeA (Ann.var 0) && isTypeA (Ann.var 1)) = false)
    ∧ (compatible W0 false (.var 0) (.var 1) = true
       ∧ compatible W0 true (.var 0) (.var 1) = false) :=
  ⟨by simp [identEq], by simp [isAnyA], by simp [isAnyA], by simp [isProtoA],
    by simp [isUnionA], by simp [isUnionA], by simp [genericRelA],
    by simp [isTypeA],
    C9_permissive_fallback W0 (.var 0) (.var 1) (by simp [identEq])
      (by simp [isAnyA]) (by simp [isAnyA]) (by simp [isProtoA])
      (by simp [isUnionA]) (by simp [isUnionA]) (by simp [genericRelA])
      (by simp [isTypeA])⟩

/-- Model of `inspect.Parameter.kind`. -/
inductive ParamKind : Type where
  | positional_only : ParamKind
  | positional_or_keyword : ParamKind
  | var_positional : ParamKind
  | keyword_only : ParamKind
  | var_keyword : ParamKind
deriving DecidableEq

/-- An `inspect.Parameter` as `_missing_pattr` consumes it: its name and its
kind. -/
structure Param : Type where
  name : String
  kind : ParamKind
deriving DecidableEq

/-- Model of `_missing_pattr` of `sotkalib/type/_checkers.py`: called by
`_check_signatures` for a protocol parameter `pparam` that is absent by name
from the class method's parameters `typparam`; `*args`/`**kwargs` in the
class method can absorb it.  Returns the violation message, or `None` when
the parameter is absorbed. -/
def missing_pattr (typparam : List Param) (name : String) (pparam : Param) :
    Option String :=
  let contains_posvar := typparam.any (fun p => p.kind == .var_positional)
  let contains_kwargs := typparam.any (fun p => p.kind == .var_keyword)
  if pparam.kind == .positional_or_keyword then
    if !(contains_posvar || contains_kwargs) then
      some ("expected parameter `" ++ pparam.name ++ "` on method `" ++ name ++ "`")
    else none
  else if pparam.kind == .keyword_only then
    if !contains_kwargs then
      some ("expected keyword parameter `" ++ pparam.name ++ "` on method `" ++ name ++ "`")
    else none
  else
    some ("expected parameter `" ++ pparam.name ++ "` on method `" ++ name ++ "`")

/-- C3.  Variadic absorption in signature matching: for a protocol method
parameter absent by name from the class method, no violation is produced
exactly when the class method's variadic parameters absorb it — a
`POSITIONAL_OR_KEYWORD` protocol parameter is absorbed by either `*args` or
`**kwargs`, a `KEYWORD_ONLY` protocol parameter only by `**kwargs`, and a
protocol parameter of any other kind is never absorbed and always yields a
violation. -/
theorem C3_variadic_absorption (typparam : List Param) (name : String)
    (pparam : Param)
    (habsent : typparam.all (fun q => q.name != pparam.name) = true) :
    missing_pattr typparam name pparam = none
    ↔ ((pparam.kind = .positional_or_keyword
          ∧ (typparam.any (fun p => p.kind == .var_positional) = true
             ∨ typparam.any (fun p => p.kind == .var_keyword) = true))
       ∨ (pparam.kind = .keyword_only
          ∧ typparam.any (fun p => p.kind == .var_keyword) = true)) := by
  cases hk : pparam.kind <;> simp_all [missing_pattr]
  constructor
  · intro h
    by_cases ha : ∃ x ∈ typparam, x.kind = ParamKind.var_positional
    · exact Or.inl ha
    · push_neg at ha
      exact Or.inr (h ha)
  · rintro (⟨x, hx, hk2⟩ | hb) hall
    · exact absurd hk2 (hall x hx)
    · exact hb

/-- Witness for `C3_variadic_absorption`: protocol parameter `x` of kind
`KEYWORD_ONLY`, class method having only `**kwargs` — absorbed, no
violation. -/
theorem C3_variadic_absorption_witness :
    ([Param.mk "kwargs" .var_keyword].all
        (fun q => q.name != (Param.mk "x" .keyword_only).name) = true)
    ∧ (missing_pattr [Param.mk "kwargs" .var_keyword] "meth"
          (Param.mk "x" .keyword_only) = none
        ↔ (((Param.mk "x" .keyword_only).kind = .positional_or_keyword
              ∧ ([Param.mk "kwargs" .var_keyword].any
                    (fun p => p.kind == .var_positional) = true
                 ∨ [Param.mk "kwargs" .var_keyword].any
                    (fun p => p.kind == .var_keyword) = true))
           ∨ ((Param.mk "x" .keyword_only).kind = .keyword_only
              ∧ [Param.mk "kwargs" .var_keyword].any
                  (fun p => p.kind == .var_keyword) = true))) :=
  ⟨by decide,
    C3_variadic_absorption [Param.mk "kwargs" .var_keyword] "meth"
      (Param.mk "x" .keyword_only) (by decide)⟩

/-- Python truthiness of a `str` (`bool(s)`). -/
def pyTruthy (s : String) : Bool := s != ""

/-- Python truthiness of a `str | None`. -/
def optTruthy : Option String → Bool
  | none => false
  | some s => pyTruthy s

/-- Model of `MethodKind` of `sotkalib/type/_extr.py`:
`typing.Literal["method", "static", "classmethod", "property"]`. -/
inductive MethodKind : Type where
  | method : MethodKind
  | static : MethodKind
  | classmethod : MethodKind
  | property : MethodKind
deriving DecidableEq

/-- What the two driver loops of `sotkalib/type/iface/_impl.py` observe about
one protocol member through reflection: the member name, whether
`getattr(cls, name, Unset)` found a value (`is_set`), the unwrapped kinds of
the protocol member and of the class member, and the three callability tests
the drivers perform. -/
structure MemberView : Type where
  name : String
  clsmbrSet : Bool
  protoKind : MethodKind
  clsKind : MethodKind
  protombrCallable : Bool
  protombrUnwrappedCallable : Bool
  clsmbrCallable : Bool

/-- The checker functions that `_impl.py` imports from its `_checkers`
module, together with the `_tname` renderings used by the one inline
type-mismatch message, abstracted as oracles keyed by member name.  Both
drivers call each checker with identical arguments at the same program
points, so they are modelled as pure functions of the member name; the
equivalence theorem below holds for every behaviour of the checkers. -/
structure CheckOracle : Type where
  checkMissing : String → Option String
  checkProperty : String → List String
  checkMethodKind : String → Option String
  checkCallable : String → List String
  attrsIncompat : String → Bool
  checkAnnotAttrs : String → Option String
  tnameProto : String → String
  tnameCls : String → String

/-- The inline data-attribute message of `_impl.py` line 143, an f-string
interpolating the member name. -/
def dataAttrMsg (name : String) : String :=
  "expected `" ++ name ++ "` to be a data attribute, found callable"

/-- The inline type-mismatch message of `_impl.py` lines 147-149, an f-string
interpolating the member name and the two `_tname` renderings. -/
def attrsIncompatMsg (O : CheckOracle) (name : String) : String :=
  "expected `" ++ name ++ "` to be of type " ++ O.tnameProto name
    ++ ", found " ++ O.tnameCls name

/-- Strings starting with the literal `"expected \x60"` are truthy. -/
theorem pyTruthy_expected (y : String) : pyTruthy ("expected `" ++ y) = true := by
  have hlen : ("expected `" ++ y).length = "expected `".length + y.length :=
    String.length_append ..
  have h10 : "expected `".length = 10 := rfl
  simp only [pyTruthy, bne_iff_ne, ne_eq]
  intro h
  rw [h] at hlen
  have h0 : ("" : String).length = 0 := rfl
  rw [h0, h10] at hlen
  omega

/-- The violations the collecting driver `implements` (early=False) gathers
for one protocol member (`_impl.py` lines 94-149): a `if viol := …:` walrus
appends only a truthy checker result, list-valued checker results are
extended whole, and each branch ends the member's processing exactly where
the source has `continue`. -/
def memberViols (O : CheckOracle) (type_hints : Bool) (m : MemberView) :
    List String :=
  if !m.clsmbrSet then
    match O.checkMissing m.name with
    | some v => if pyTruthy v then [v] else []
    | none => []
  else if m.protoKind == .property then O.checkProperty m.name
  else if optTruthy (O.checkMethodKind m.name) then
    match O.checkMethodKind m.name with
    | some v => [v]
    | none => []
  else if m.protombrCallable || m.protombrUnwrappedCallable then
    O.checkCallable m.name
  else if m.clsmbrCallable then [dataAttrMsg m.name]
  else if type_hints && O.attrsIncompat m.name then [attrsIncompatMsg O m.name]
  else []

/-- The per-member test of `_implements_early` (`_impl.py` lines 191-242):
`true` iff the member makes the early driver `return False`. -/
def memberBad (O : CheckOracle) (type_hints : Bool) (m : MemberView) : Bool :=
  if !m.clsmbrSet then optTruthy (O.checkMissing m.name)
  else if m.protoKind == .property then !(O.checkProperty m.name).isEmpty
  else if optTruthy (O.checkMethodKind m.name) then true
  else if m.protombrCallable || m.protombrUnwrappedCallable then
    !(O.checkCallable m.name).isEmpty
  else if m.clsmbrCallable then true
  else type_hints && O.attrsIncompat m.name

/-- One step of the annotated-only loop (`_impl.py` lines 152-158) in the
collecting driver: attrs that are protocol members or protected are skipped,
otherwise a truthy `_check_annot_attrs` result is appended. -/
def annotViol (O : CheckOracle) (memberNames : List String) (attr : String) :
    List String :=
  if memberNames.contains attr || attr.startsWith "_" then []
  else
    match O.checkAnnotAttrs attr with
    | some v => if pyTruthy v then [v] else []
    | none => []

/-- One step of the annotated-only loop in the early driver
(`_impl.py` lines 245-251). -/
def annotBad (O : CheckOracle) (memberNames : List String) (attr : String) :
    Bool :=
  if memberNames.contains attr || attr.startsWith "_" then false
  else optTruthy (O.checkAnnotAttrs attr)

/-- The full violation list collected by `implements` (early=False) over the
protocol members and the annotated-only attributes. -/
def implementsViols (O : CheckOracle) (type_hints : Bool)
    (protombrs : List MemberView) (protoTypehintAttrs : List String) :
    List String :=
  protombrs.flatMap (memberViols O type_hints)
    ++ protoTypehintAttrs.flatMap (annotViol O (protombrs.map MemberView.name))

/-- The call `implements(cls, proto)` (early=False) raises `DoesNotImplementError`
iff `any(viols)` is true (`_impl.py` lines 160-161). -/
def implementsRaises (O : CheckOracle) (type_hints : Bool)
    (protombrs : List MemberView) (protoTypehintAttrs : List String) : Bool :=
  (implementsViols O type_hints protombrs protoTypehintAttrs).any pyTruthy

/-- Model of `_implements_early`: walks the same members and attrs, returning `False`
at the first failing check and `True` when none fails. -/
def implements_early (O : CheckOracle) (type_hints : Bool)
    (protombrs : List MemberView) (protoTypehintAttrs : List String) : Bool :=
  protombrs.all (fun m => !(memberBad O type_hints m))
    && protoTypehintAttrs.all
        (fun a => !(annotBad O (protombrs.map MemberView.name) a))

/-- A non-empty string is truthy. -/
theorem pyTruthy_of_length_pos (s : String) (h : 0 < s.length) :
    pyTruthy s = true := by
  simp only [pyTruthy, bne_iff_ne, ne_eq]
  intro he
  rw [he] at h
  have h0 : ("" : String).length = 0 := rfl
  omega

/-- The inline data-attribute message is truthy. -/
theorem dataAttrMsg_truthy (name : String) : pyTruthy (dataAttrMsg name) = true := by
  apply pyTruthy_of_length_pos
  have h1 : "expected `".length = 10 := rfl
  simp only [dataAttrMsg, String.length_append, h1]
  omega

/-- The inline type-mismatch message is truthy. -/
theorem attrsIncompatMsg_truthy (O : CheckOracle) (name : String) :
    pyTruthy (attrsIncompatMsg O name) = true := by
  apply pyTruthy_of_length_pos
  have h1 : "expected `".length = 10 := rfl
  simp only [attrsIncompatMsg, String.length_append, h1]
  omega

/-- Over a list of truthy strings, `any truthy` is non-emptiness. -/
theorem any_truthy_of_all (l : List String)
    (h : ∀ v ∈ l, pyTruthy v = true) : l.any pyTruthy = !l.isEmpty := by
  induction l with
  | nil => simp
  | cons a t ih => simp_all

/-- For one member, the collecting driver gathers a truthy violation exactly
when the early driver fails, provided the list-valued checkers only emit
truthy messages (as every message in `_checkers.py` is a non-empty
f-string). -/
theorem memberViols_any_eq (O : CheckOracle) (th : Bool) (m : MemberView)
    (hp : ∀ v ∈ O.checkProperty m.name, pyTruthy v = true)
    (hc : ∀ v ∈ O.checkCallable m.name, pyTruthy v = true) :
    (memberViols O th m).any pyTruthy = memberBad O th m := by
  simp only [memberViols, memberBad]
  split_ifs with hset hprop hkind hcall hclsc hattr
  · cases hmv : O.checkMissing m.name with
    | none => simp [optTruthy]
    | some v =>
        by_cases ht : pyTruthy v = true
        · simp [optTruthy, ht]
        · simp only [Bool.not_eq_true] at ht
          simp [optTruthy, ht]
  · exact any_truthy_of_all _ hp
  · cases hmk : O.checkMethodKind m.name with
    | none => rw [hmk] at hkind; simp [optTruthy] at hkind
    | some v =>
        rw [hmk] at hkind
        simp only [optTruthy] at hkind
        simp [hkind]
  · exact any_truthy_of_all _ hc
  · simp [dataAttrMsg_truthy]
  · rw [hattr]
    simp [attrsIncompatMsg_truthy]
  · have h2 : (th && O.attrsIncompat m.name) = false := by
      revert hattr
      cases th && O.attrsIncompat m.name <;> simp
    rw [h2]
    simp

/-- For one annotated-only attribute, the collecting driver appends a truthy
violation exactly when the early driver fails. -/
theorem annotViol_any_eq (O : CheckOracle) (ns : List String) (a : String) :
    (annotViol O ns a).any pyTruthy = annotBad O ns a := by
  simp only [annotViol, annotBad]
  split_ifs with hskip
  · simp
  · cases hma : O.checkAnnotAttrs a with
    | none => simp [optTruthy]
    | some v =>
        by_cases ht : pyTruthy v = true
        · simp [optTruthy, ht]
        · simp only [Bool.not_eq_true] at ht
          simp [optTruthy, ht]

/-- Lemma: `any` distributes over `flatMap`. -/
theorem any_truthy_flatMap {α : Type} (f : α → List String) (l : List α) :
    (l.flatMap f).any pyTruthy = l.any (fun x => (f x).any pyTruthy) := by
  induction l with
  | nil => simp
  | cons a t ih => simp [ih]

/-- Lemma: `all` of a negation is the negation of `any`. -/
theorem all_not_eq_not_any {α : Type} (l : List α) (p : α → Bool) :
    l.all (fun x => !(p x)) = !(l.any p) := by
  induction l with
  | nil => simp
  | cons a t ih => simp_all

/-- C4.  The early and the violation-collecting code paths of the
conformance check agree: over the same reflection view of the protocol
members and annotated-only attributes, with identical flag values and
identical checker behaviour, `implements(cls, proto, early=True)` returns
`True` exactly when `implements(cls, proto)` (early=False) collects no truthy
violation — i.e. raises no `DoesNotImplementError` and returns `None` — and
returns `False` exactly when the non-early call raises.  The hypotheses state
that the list-valued checkers emit only non-empty messages, which holds of
every message built in `_checkers.py`. -/
theorem C4_early_agrees_with_collecting (O : CheckOracle) (th : Bool)
    (ms : List MemberView) (attrs : List String)
    (hp : ∀ n, ∀ v ∈ O.checkProperty n, pyTruthy v = true)
    (hc : ∀ n, ∀ v ∈ O.checkCallable n, pyTruthy v = true) :
    implements_early O th ms attrs = !(implementsRaises O th ms attrs) := by
  unfold implements_early implementsRaises implementsViols
  rw [List.any_append, any_truthy_flatMap, any_truthy_flatMap]
  have hm : ∀ m : MemberView,
      (memberViols O th m).any pyTruthy = memberBad O th m :=
    fun m => memberViols_any_eq O th m (hp m.name) (hc m.name)
  simp only [hm, annotViol_any_eq, all_not_eq_not_any]
  simp [Bool.not_or]

/-- An oracle whose checkers all succeed. -/
def O0 : CheckOracle :=
  ⟨fun _ => none, fun _ => [], fun _ => none, fun _ => [], fun _ => false,
    fun _ => none, fun _ => "int", fun _ => "str"⟩

/-- Witness for `C4_early_agrees_with_collecting` at a concrete protocol
view. -/
theorem C4_early_agrees_witness :
    (∀ n, ∀ v ∈ O0.checkProperty n, pyTruthy v = true)
    ∧ (∀ n, ∀ v ∈ O0.checkCallable n, pyTruthy v = true)
    ∧ (implements_early O0 true
        [⟨"meth", true, .method, .method, true, true, true⟩] ["attr"]
      = !(implementsRaises O0 true
        [⟨"meth", true, .method, .method, true, true, true⟩] ["attr"])) :=
  ⟨by simp [O0], by simp [O0],
    C4_early_agrees_with_collecting O0 true
      [⟨"meth", true, .method, .method, true, true, true⟩] ["attr"]
      (by simp [O0]) (by simp [O0])⟩

/-- Model of `__try_acquire` of `sotkalib/redis/lock.py`:
`SET key "acquired" NX EX acquire_timeout` — sets the key only when it is
absent and reports whether it was set.  The key state is `none` when absent
and `some v` when it holds value `v` (the TTL plays no role in this claim). -/
def try_acquire : Option String → Option String × Bool
  | none => (some "acquired", true)
  | some v => (some v, false)

/-- How `redis_context_lock` terminates. -/
inductive LockOutcome : Type where
  | yielded : LockOutcome
  | raisedLockError : LockOutcome
deriving DecidableEq

/-- Model of `redis_context_lock` of `sotkalib/redis/lock.py` with the default
`wait_for_lock=False`, as a transformer of the lock-key state: the body runs
`__try_acquire` inside a `try` block, raises `ContextLockError` (without
yielding) when acquisition fails, and the `finally` block executes
`rc.delete(key_to_lock)` unconditionally — both after the body on the success
path and while the `ContextLockError` propagates on the failure path (the
`finally` of the generator runs as the exception unwinds out of
`__aenter__`).  Returns the final key state and whether the manager
yielded. -/
def redis_context_lock (st : Option String) : Option String × LockOutcome :=
  let res := try_acquire st
  if res.2 then (none, .yielded)
  else (none, .raisedLockError)

/-- C5 (code bug).  The claim — that a failed acquisition raises
`ContextLockError` without yielding *and leaves the existing lock key and its
value unchanged* — is half right on the code: when the key is already held
(`SET NX` returns false) the manager does raise without yielding, but the
unconditional `finally: rc.delete(key_to_lock)` runs while that exception
propagates and deletes the other party's lock, so the key does not survive a
failed acquisition.  Evaluating the model at a held key shows the final state
is `none` rather than the original value. -/
theorem C5_failed_acquire_deletes_foreign_lock :
    redis_context_lock (some "acquired") = (none, .raisedLockError)
    ∧ (redis_context_lock (some "acquired")).1 ≠ some "acquired" := by
  constructor
  · rfl
  · simp [redis_context_lock, try_acquire]

/-- Model of `redis.get(key)` on the `DistributedLock` key state (value, TTL). -/
def redisGetVal : Option (String × Nat) → Option String
  | none => none
  | some vt => some vt.1

/-- Model of `_RELEASE_LUA` of `sotkalib/redis/locker.py`: delete the key only when
its current value equals the token; returns the `DEL` count (0 when the
values differ or the key is absent). -/
def release_lua (st : Option (String × Nat)) (token : String) :
    Option (String × Nat) × Nat :=
  match st with
  | some vt => if vt.1 = token then (none, 1) else (some vt, 0)
  | none => (none, 0)

/-- Model of `_EXTEND_LUA` of `locker.py`: reset the key's TTL to `ttl` only when its
current value equals the token; returns the `EXPIRE` result (0 otherwise). -/
def extend_lua (st : Option (String × Nat)) (token : String) (ttl : Nat) :
    Option (String × Nat) × Nat :=
  match st with
  | some vt => if vt.1 = token then (some (vt.1, ttl), 1) else (some vt, 0)
  | none => (none, 0)

/-- The `finally` block of `DistributedLock.acquire` when the lock was
acquired: `rc.eval(_RELEASE_LUA, 1, key, token)` with the random token of
this acquisition. -/
def acquire_release (st : Option (String × Nat)) (token : String) :
    Option (String × Nat) :=
  (release_lua st token).1

/-- One iteration of `DistributedLock._watchdog`: run `_EXTEND_LUA` with this
acquisition's token and keep running iff the result is truthy
(`if not result: return`). -/
def watchdog_tick (st : Option (String × Nat)) (token : String) (ttl : Nat) :
    Option (String × Nat) × Bool :=
  let r := extend_lua st token ttl
  (r.1, r.2 != 0)

/-- C6.  Compare-and-delete release with token-guarded watchdog: on exit from
`DistributedLock.acquire` the key is deleted exactly when its current value
equals the acquisition's random token, and the watchdog extends the TTL (and
keeps running) exactly then; in every state where the key holds a different
value — e.g. the lock expired and was re-acquired by another holder — or is
absent, both the release and the extension leave the state unchanged. -/
theorem C6_token_guarded_release_and_extend (st : Option (String × Nat))
    (token : String) (ttl : Nat) :
    (redisGetVal st = some token →
      acquire_release st token = none
      ∧ watchdog_tick st token ttl = (some (token, ttl), true))
    ∧ (redisGetVal st ≠ some token →
      acquire_release st token = st ∧ watchdog_tick st token ttl = (st, false)) := by
  cases st with
  | none =>
      refine ⟨fun h => by simp [redisGetVal] at h, fun _ => ?_⟩
      simp [acquire_release, release_lua, watchdog_tick, extend_lua]
  | some vt =>
      by_cases hv : vt.1 = token
      · refine ⟨fun _ => ?_, fun h => ?_⟩
        · simp [acquire_release, release_lua, watchdog_tick, extend_lua, hv]
        · simp [redisGetVal, hv] at h
      · refine ⟨fun h => ?_, fun _ => ?_⟩
        · simp [redisGetVal, hv] at h
        · simp [acquire_release, release_lua, watchdog_tick, extend_lua, hv]

/-- Witness for `C6_token_guarded_release_and_extend`: a key held by a
different token is left untouched by release and extend. -/
theorem C6_token_guarded_witness :
    (redisGetVal (some ("other", 5)) ≠ some "tok")
    ∧ (acquire_release (some ("other", 5)) "tok" = some ("other", 5)
       ∧ watchdog_tick (some ("other", 5)) "tok" 30 = (some ("other", 5), false)) :=
  ⟨by simp [redisGetVal],
    (C6_token_guarded_release_and_extend (some ("other", 5)) "tok" 30).2
      (by simp [redisGetVal])⟩

/-- Constant `MAXIMUM_BACKOFF` of `sotkalib/http/client_session.py` (a float constant,
modelled in ℚ). -/
def MAXIMUM_BACKOFF : ℚ := 120

/-- The sleep computed by `_handle_retry` for a failed 0-based attempt:
`delay = self.config.base * min(MAXIMUM_BACKOFF, self.config.backoff**ctx.attempt)`. -/
def retryDelay (base backoff : ℚ) (attempt : Nat) : ℚ :=
  base * min MAXIMUM_BACKOFF (backoff ^ attempt)

/-- How the retry loop of `_request_with_retry` classifies the outcome of one
pipeline attempt: success; an exception caught by
`merge_tuples(exception_settings.to_retry, (StatusRetryError,))`; an
exception in `exception_settings.to_raise`; any other exception. -/
inductive AttemptOutcome : Type where
  | success : AttemptOutcome
  | retryable : AttemptOutcome
  | listedRaise : AttemptOutcome
  | unlisted : AttemptOutcome
deriving DecidableEq

/-- How `HTTPSession.request` terminates. -/
inductive ReqResult : Type where
  | success : ReqResult
  | ranOutOfAttempts : ReqResult
  | raisedOther : ReqResult
deriving DecidableEq

/-- A trace of `_request_with_retry`: the number of pipeline attempts
performed, the sleeps executed in order, and the final outcome. -/
structure RetryTrace : Type where
  attempts : Nat
  sleeps : List ℚ
  result : ReqResult
deriving DecidableEq

/-- The `for attempt in range(max_attempts)` loop of `_request_with_retry`,
from attempt number `attempt` with `fuel` iterations remaining.  A retryable
failure goes through `_handle_retry`, which raises `RanOutOfAttemptsError`
when `ctx.attempt >= maximum_retries` and otherwise sleeps
`retryDelay base backoff attempt`; a `to_raise` failure goes through
`_handle_to_raise`, which always raises; any other failure goes through
`_handle_exception`, which re-raises when `unspecified == "raise"` and
otherwise behaves like `_handle_retry`.  Exhausting the loop reaches the
trailing `raise RanOutOfAttemptsError`. -/
def requestLoop (maximumRetries : Nat) (base backoff : ℚ)
    (unspecifiedRaise : Bool) (outcomes : Nat → AttemptOutcome)
    (attempt fuel : Nat) : RetryTrace :=
  match fuel with
  | 0 => ⟨0, [], .ranOutOfAttempts⟩
  | fuel' + 1 =>
    match outcomes attempt with
    | .success => ⟨1, [], .success⟩
    | .retryable =>
        if maximumRetries ≤ attempt then ⟨1, [], .ranOutOfAttempts⟩
        else
          let t := requestLoop maximumRetries base backoff unspecifiedRaise
            outcomes (attempt + 1) fuel'
          ⟨t.attempts + 1, retryDelay base backoff attempt :: t.sleeps, t.result⟩
    | .listedRaise => ⟨1, [], .raisedOther⟩
    | .unlisted =>
        if unspecifiedRaise then ⟨1, [], .raisedOther⟩
        else if maximumRetries ≤ attempt then ⟨1, [], .ranOutOfAttempts⟩
        else
          let t := requestLoop maximumRetries base backoff unspecifiedRaise
            outcomes (attempt + 1) fuel'
          ⟨t.attempts + 1, retryDelay base backoff attempt :: t.sleeps, t.result⟩

/-- Model of `HTTPSession._request_with_retry` (and hence `HTTPSession.request`):
`ctx.max_attempts = self.config.maximum_retries + 1` loop iterations starting
at attempt 0. -/
def request_with_retry (maximumRetries : Nat) (base backoff : ℚ)
    (unspecifiedRaise : Bool) (outcomes : Nat → AttemptOutcome) : RetryTrace :=
  requestLoop maximumRetries base backoff unspecifiedRaise outcomes 0
    (maximumRetries + 1)

/-- Helper for C7: the loop under all-retryable outcomes, parameterized by
the distance `k` to the last attempt. -/
theorem requestLoop_all_retryable (mr : Nat) (base backoff : ℚ) (uR : Bool)
    (outcomes : Nat → AttemptOutcome)
    (hall : ∀ a, a ≤ mr → outcomes a = .retryable) :
    ∀ k a, a + k = mr →
      requestLoop mr base backoff uR outcomes a (k + 1)
        = ⟨k + 1, (List.range' a k).map (retryDelay base backoff),
            .ranOutOfAttempts⟩ := by
  intro k
  induction k with
  | zero =>
      intro a ha
      have ho : outcomes a = .retryable := hall a (by omega)
      simp [requestLoop, ho, show mr ≤ a by omega]
  | succ k ih =>
      intro a ha
      have ho : outcomes a = .retryable := hall a (by omega)
      have hlt : ¬ mr ≤ a := by omega
      have ht := ih (a + 1) (by omega)
      rw [requestLoop.eq_def]
      simp only [ho, if_neg hlt]
      rw [ht]
      simp [List.range'_succ]

/-- C7.  Bounded retry with backoff: when every attempt fails with a
retryable error (a `StatusRetryError` or an exception type in
`exception_settings.to_retry`), `HTTPSession.request` performs exactly
`maximum_retries + 1` pipeline attempts, sleeps
`base * min(120, backoff ** attempt)` seconds after failed 0-based attempt
number `attempt` for each `attempt < maximum_retries`, and then raises
`RanOutOfAttemptsError`. -/
theorem C7_bounded_retry_with_backoff (mr : Nat) (base backoff : ℚ)
    (uR : Bool) (outcomes : Nat → AttemptOutcome)
    (hall : ∀ a, a ≤ mr → outcomes a = .retryable) :
    request_with_retry mr base backoff uR outcomes
      = ⟨mr + 1, (List.range mr).map (retryDelay base backoff),
          .ranOutOfAttempts⟩ := by
  unfold request_with_retry
  rw [List.range_eq_range']
  exact requestLoop_all_retryable mr base backoff uR outcomes hall mr 0 (by omega)

/-- Witness for `C7_bounded_retry_with_backoff`: `maximum_retries = 3` (the
settings default), `base = 1`, `backoff = 2`, every attempt retryable:
4 attempts, sleeps 1, 2, 4, then `RanOutOfAttemptsError`. -/
theorem C7_bounded_retry_witness :
    (∀ a, a ≤ 3 → (fun _ => AttemptOutcome.retryable) a = .retryable)
    ∧ (request_with_retry 3 1 2 false (fun _ => AttemptOutcome.retryable)
      = ⟨4, [1, 2, 4], .ranOutOfAttempts⟩) := by
  refine ⟨fun a _ => rfl, ?_⟩
  rw [C7_bounded_retry_with_backoff 3 1 2 false _ (fun a _ => rfl)]
  norm_num [List.range_succ, retryDelay, MAXIMUM_BACKOFF]

/-- A Python value as `safe_serialize_value` of `sotkalib/json/dump.py`
dispatches on it through its `match obj` type switch:

* the primitive branches (`None`, `str`, `int`, `float`, `bool`);
* `pdatetime iso` covers the `datetime() | date()` branch, `iso` being what
  `obj.isoformat()` returns; `pdecimal q` the `Decimal()` branch (`float(obj)`);
  `puuid s` the `UUID()` branch (`str(obj)`); `penum v` the `Enum()` branch
  (`v` is `obj.value`); `pbytes s` the `bytes()` branch (`s` is
  `obj.decode("utf-8", errors="replace")`, which never raises);
* `pdict items` a dict (keys are serialized structurally untouched, only the
  values are recursed into); `plist elems` the
  `list() | tuple() | set() | frozenset()` branch;
* `pmodel dump strOk` an object with a `model_dump` method — `dump` is
  `none` when `model_dump()` itself raises; `pobj dict strOk` an object with
  a `__dict__`; `pother orjsonOk strOk` everything else, `orjsonOk` telling
  whether `orjson.dumps(obj)` succeeds.

`strOk` records whether `str(obj)` succeeds on the user-defined object; for
built-in values `str` is total (container `str` goes through the elements'
`__repr__` slot, which the claims do not exercise, so it is treated as
total). -/
inductive PyVal : Type where
  | pnone : PyVal
  | pstr (s : String) : PyVal
  | pint (n : Int) : PyVal
  | pfloat (q : ℚ) : PyVal
  | pbool (b : Bool) : PyVal
  | pdatetime (iso : String) : PyVal
  | pdecimal (q : ℚ) : PyVal
  | puuid (s : String) : PyVal
  | penum (v : PyVal) : PyVal
  | pbytes (s : String) : PyVal
  | pdict (items : List (PyVal × PyVal)) : PyVal
  | plist (elems : List PyVal) : PyVal
  | pmodel (dump : Option (List (PyVal × PyVal))) (strOk : Bool) : PyVal
  | pobj (dict : List (PyVal × PyVal)) (strOk : Bool) : PyVal
  | pother (orjsonOk : Bool) (strOk : Bool) : PyVal

/-- The result of `str(obj)`: `none` when `__str__` raises (possible only on
the user-defined object constructors), otherwise some rendering — the
rendered text itself is irrelevant to every claim, so placeholders stand for
the actual characters. -/
def pyStr : PyVal → Option String
  | .pmodel _ strOk => if strOk then some "<model>" else none
  | .pobj _ strOk => if strOk then some "<object>" else none
  | .pother _ strOk => if strOk then some "<other>" else none
  | _ => some "<builtin>"

/-- The depth-cutoff `return str(obj)`: unguarded, so a raising `__str__`
propagates. -/
def strSerialize (obj : PyVal) : Except Unit PyVal :=
  match pyStr obj with
  | some s => .ok (.pstr s)
  | none => .error ()

/-- The fallback branch tail: `str(obj)` guarded by `except Exception`, which
turns a raising `__str__` into `None`. -/
def strSerializeGuarded (obj : PyVal) : Except Unit PyVal :=
  match pyStr obj with
  | some s => .ok (.pstr s)
  | none => .ok .pnone

/-- The `except Exception` wrapper of the `model_dump` and `__dict__`
branches: an exception from the nested dict comprehension is swallowed and
the branch yields `None`. -/
def dictOrNone (r : Except Unit (List (PyVal × PyVal))) : Except Unit PyVal :=
  match r with
  | .ok its => .ok (.pdict its)
  | .error _ => .ok .pnone

mutual

/-- Model of `safe_serialize_value(obj, _depth, _depth_limit)` of
`sotkalib/json/dump.py`.  `Except.error` models an exception propagating out
of the call.  The depth check `_depth > _depth_limit` precedes the type
switch and returns the **unguarded** `str(obj)` (`strSerialize`); the
`model_dump` and `__dict__` branches wrap their dict comprehension in
an exception handler assigning `None` (`dictOrNone`), so errors from nested values are
swallowed there, while the plain dict and list comprehensions are unguarded
and propagate errors; the final fallback branch guards both `orjson.dumps`
and `str(obj)`. -/
def safe_serialize_value (obj : PyVal) (dep lim : Nat) : Except Unit PyVal :=
  if lim < dep then strSerialize obj
  else
    match obj with
    | .pnone => .ok .pnone
    | .pstr s => .ok (.pstr s)
    | .pint n => .ok (.pint n)
    | .pfloat q => .ok (.pfloat q)
    | .pbool b => .ok (.pbool b)
    | .pdatetime iso => .ok (.pstr iso)
    | .pdecimal q => .ok (.pfloat q)
    | .puuid s => .ok (.pstr s)
    | .penum v => .ok v
    | .pbytes s => .ok (.pstr s)
    | .pdict items => (serialize_items items (dep + 1) lim).map .pdict
    | .plist elems => (serialize_list elems (dep + 1) lim).map .plist
    | .pmodel none _ => .ok .pnone
    | .pmodel (some items) _ => dictOrNone (serialize_items items (dep + 1) lim)
    | .pobj items _ => dictOrNone (serialize_items items (dep + 1) lim)
    | .pother orjsonOk strOk =>
        if orjsonOk then .ok (.pother orjsonOk strOk)
        else strSerializeGuarded (.pother orjsonOk strOk)
termination_by sizeOf obj
decreasing_by all_goals (first | (simp_wf; omega) | simp_wf)

/-- The list comprehension of the `list | tuple | set | frozenset` branch:
elements serialized left to right, the first exception propagating. -/
def serialize_list (l : List PyVal) (dep lim : Nat) : Except Unit (List PyVal) :=
  match l with
  | [] => .ok []
  | v :: t =>
      match safe_serialize_value v dep lim with
      | .error e => .error e
      | .ok v2 =>
          match serialize_list t dep lim with
          | .error e => .error e
          | .ok t2 => .ok (v2 :: t2)
termination_by sizeOf l
decreasing_by all_goals (first | (simp_wf; omega) | simp_wf)

/-- The dict comprehension of the `dict`, `model_dump` and `__dict__`
branches: keys pass through untouched, values are serialized left to
right. -/
def serialize_items (l : List (PyVal × PyVal)) (dep lim : Nat) :
    Except Unit (List (PyVal × PyVal)) :=
  match l with
  | [] => .ok []
  | (k, v) :: t =>
      match safe_serialize_value v dep lim with
      | .error e => .error e
      | .ok v2 =>
          match serialize_items t dep lim with
          | .error e => .error e
          | .ok t2 => .ok ((k, v2) :: t2)
termination_by sizeOf l
decreasing_by all_goals (first | (simp_wf; omega) | simp_wf)

end

mutual

/-- Every object reachable by the serializer's recursion inside `v` (values
of dicts and models, list elements — dict keys are never recursed into) has a
total `str`. -/
def allStrOk (v : PyVal) : Bool :=
  match v with
  | .pmodel none strOk => strOk
  | .pmodel (some its) strOk => strOk && itemsStrOk its
  | .pobj its strOk => strOk && itemsStrOk its
  | .pother _ strOk => strOk
  | .pdict its => itemsStrOk its
  | .plist es => listStrOk es
  | .penum w => allStrOk w
  | _ => true
termination_by sizeOf v
decreasing_by all_goals (first | (simp_wf; omega) | simp_wf)

/-- Predicate `allStrOk` over list elements. -/
def listStrOk (l : List PyVal) : Bool :=
  match l with
  | [] => true
  | v :: t => allStrOk v && listStrOk t
termination_by sizeOf l
decreasing_by all_goals (first | (simp_wf; omega) | simp_wf)

/-- Predicate `allStrOk` over dict values. -/
def itemsStrOk (l : List (PyVal × PyVal)) : Bool :=
  match l with
  | [] => true
  | (k, v) :: t => allStrOk v && itemsStrOk t
termination_by sizeOf l
decreasing_by all_goals (first | (simp_wf; omega) | simp_wf)

end

/-- Under `allStrOk`, `str(v)` succeeds. -/
theorem pyStr_isSome_of_allStrOk (v : PyVal) (h : allStrOk v = true) :
    (pyStr v).isSome = true := by
  cases v with
  | pmodel dump strOk =>
      cases dump <;> simp_all [allStrOk, pyStr]
  | pobj its strOk => simp_all [allStrOk, pyStr]
  | pother oj strOk => simp_all [allStrOk, pyStr]
  | _ => simp [pyStr]

/-- True when the call returned normally (no exception propagated). -/
def exOk {α : Type} : Except Unit α → Bool
  | .ok _ => true
  | .error _ => false


/-- Totality of the serializer under total `str`, proved simultaneously for
values, element lists and item lists by strong induction on size. -/
theorem serialize_total_aux (n : Nat) :
    (∀ v : PyVal, sizeOf v ≤ n → allStrOk v = true →
      ∀ dep lim, exOk (safe_serialize_value v dep lim) = true)
    ∧ (∀ l : List PyVal, sizeOf l ≤ n → listStrOk l = true →
      ∀ dep lim, exOk (serialize_list l dep lim) = true)
    ∧ (∀ l : List (PyVal × PyVal), sizeOf l ≤ n → itemsStrOk l = true →
      ∀ dep lim, exOk (serialize_items l dep lim) = true) := by
  induction n using Nat.strong_induction_on with
  | _ n ih =>
  refine ⟨?_, ?_, ?_⟩
  · intro v hs hok dep lim
    rw [safe_serialize_value.eq_def]
    by_cases hd : lim < dep
    · simp only [if_pos hd]
      have hsome := pyStr_isSome_of_allStrOk v hok
      cases hps : pyStr v with
      | none => rw [hps] at hsome; simp at hsome
      | some s => simp [strSerialize, hps, exOk]
    · simp only [if_neg hd]
      cases v with
      | pnone => simp [exOk]
      | pstr s => simp [exOk]
      | pint m => simp [exOk]
      | pfloat q => simp [exOk]
      | pbool b => simp [exOk]
      | pdatetime iso => simp [exOk]
      | pdecimal q => simp [exOk]
      | puuid s => simp [exOk]
      | penum w => simp [exOk]
      | pbytes s => simp [exOk]
      | pdict items =>
          have hits : itemsStrOk items = true := by
            simpa [allStrOk] using hok
          have hlt : sizeOf items < n := by
            have hspec : sizeOf (PyVal.pdict items) = 1 + sizeOf items := by simp
            omega
          have hrec := (ih (sizeOf items) hlt).2.2 items le_rfl hits (dep + 1) lim
          cases heq : serialize_items items (dep + 1) lim with
          | ok its => simp [heq, Except.map, exOk]
          | error e => rw [heq] at hrec; simp [exOk] at hrec
      | plist elems =>
          have hes : listStrOk elems = true := by
            simpa [allStrOk] using hok
          have hlt : sizeOf elems < n := by
            have hspec : sizeOf (PyVal.plist elems) = 1 + sizeOf elems := by simp
            omega
          have hrec := (ih (sizeOf elems) hlt).2.1 elems le_rfl hes (dep + 1) lim
          cases heq : serialize_list elems (dep + 1) lim with
          | ok es => simp [heq, Except.map, exOk]
          | error e => rw [heq] at hrec; simp [exOk] at hrec
      | pmodel dump strOk =>
          cases dump with
          | none => simp [exOk]
          | some items =>
              cases heq : serialize_items items (dep + 1) lim with
              | ok its => simp [heq, dictOrNone, exOk]
              | error e => simp [heq, dictOrNone, exOk]
      | pobj items strOk =>
          cases heq : serialize_items items (dep + 1) lim with
          | ok its => simp [heq, dictOrNone, exOk]
          | error e => simp [heq, dictOrNone, exOk]
      | pother oj strOk =>
          by_cases hoj : oj
          · simp [hoj, exOk]
          · have hoj2 : oj = false := by simpa using hoj
            subst hoj2
            have hst : strOk = true := by simpa [allStrOk] using hok
            subst hst
            simp [strSerializeGuarded, pyStr, exOk]
  · intro l hs hok dep lim
    cases l with
    | nil => simp [serialize_list, exOk]
    | cons v t =>
        have hv : allStrOk v = true ∧ listStrOk t = true := by
          have h2 := hok
          rw [listStrOk.eq_def] at h2
          simpa using h2
        have hspec : sizeOf (v :: t) = 1 + sizeOf v + sizeOf t := by simp
        have hlt1 : sizeOf v < n := by omega
        have hlt2 : sizeOf t < n := by omega
        have hrv := (ih (sizeOf v) hlt1).1 v le_rfl hv.1 dep lim
        have hrt := (ih (sizeOf t) hlt2).2.1 t le_rfl hv.2 dep lim
        rw [serialize_list.eq_def]
        cases hv2 : safe_serialize_value v dep lim with
        | error e => rw [hv2] at hrv; simp [exOk] at hrv
        | ok v2 =>
            cases ht2 : serialize_list t dep lim with
            | error e => rw [ht2] at hrt; simp [exOk] at hrt
            | ok t2 => simp [hv2, ht2, exOk]
  · intro l hs hok dep lim
    cases l with
    | nil => simp [serialize_items, exOk]
    | cons kv t =>
        obtain ⟨k, v⟩ := kv
        have hv : allStrOk v = true ∧ itemsStrOk t = true := by
          have h2 := hok
          rw [itemsStrOk.eq_def] at h2
          simpa using h2
        have hspec : sizeOf ((k, v) :: t) = 1 + (1 + sizeOf k + sizeOf v) + sizeOf t := by
          simp
        have hlt1 : sizeOf v < n := by omega
        have hlt2 : sizeOf t < n := by omega
        have hrv := (ih (sizeOf v) hlt1).1 v le_rfl hv.1 dep lim
        have hrt := (ih (sizeOf t) hlt2).2.2 t le_rfl hv.2 dep lim
        rw [serialize_items.eq_def]
        cases hv2 : safe_serialize_value v dep lim with
        | error e => rw [hv2] at hrv; simp [exOk] at hrv
        | ok v2 =>
            cases ht2 : serialize_items t dep lim with
            | error e => rw [ht2] at hrt; simp [exOk] at hrt
            | ok t2 => simp [hv2, ht2, exOk]

/-- C8 (amended).  Best-effort totality of the JSON-safe serializer: for
every Python value all of whose nested objects have a non-raising `str()`,
`safe_serialize_value` returns a value without raising, recursing through
dicts, lists/tuples/sets, `model_dump` results and `__dict__` contents by
type dispatch; and once the recursion depth exceeds the depth limit (10 at
the default call) it returns `str(obj)` for the nested object instead of
recursing further — that depth-cutoff `str(obj)` call being the one unguarded
raise site, through which an exception from a user-defined `__str__`
propagates (see the counterexample). -/
theorem C8_best_effort_serializer (v : PyVal) (dep lim : Nat)
    (hok : allStrOk v = true) :
    exOk (safe_serialize_value v dep lim) = true
    ∧ (lim < dep → safe_serialize_value v dep lim = strSerialize v) := by
  refine ⟨(serialize_total_aux (sizeOf v)).1 v le_rfl hok dep lim, ?_⟩
  intro hd
  rw [safe_serialize_value.eq_def, if_pos hd]

/-- Builds `k` plain lists nested around `v`. -/
def nestPlist : Nat → PyVal → PyVal
  | 0, v => v
  | k + 1, v => .plist [nestPlist k v]

/-- C8 counterexample.  The claim as stated — `safe_serialize_value` returns
without raising for *every* Python value — is false: an object whose
`__str__` raises (here `pobj [] false`, e.g. a plain class instance with a
raising `__str__`), nested 11 plain lists deep, is reached at `_depth = 11 >
_depth_limit = 10`, where the unguarded `return str(obj)` raises and the
exception propagates through the unguarded list comprehensions out of the
top-level call. -/
theorem C8_serializer_raises_counterexample :
    exOk (safe_serialize_value (nestPlist 11 (.pobj [] false)) 0 10) = false := by
  simp [nestPlist, safe_serialize_value, serialize_list, strSerialize, pyStr,
    Except.map, exOk]

/-- Witness for `C8_best_effort_serializer` at concrete inputs: a small dict
serializes without raising, and at depth 11 with limit 10 the serializer
returns `str(obj)`. -/
theorem C8_best_effort_witness :
    (allStrOk (.pdict [(.pstr "k", .pint 1)]) = true)
    ∧ (allStrOk (.pobj [] true) = true) ∧ (10 < 11)
    ∧ (exOk (safe_serialize_value (.pdict [(.pstr "k", .pint 1)]) 0 10) = true)
    ∧ (safe_serialize_value (.pobj [] true) 11 10 = .ok (.pstr "<object>")) := by
  have h1 : allStrOk (PyVal.pdict [(.pstr "k", .pint 1)]) = true := by
    simp [allStrOk, itemsStrOk]
  have h2 : allStrOk (PyVal.pobj [] true) = true := by
    simp [allStrOk, itemsStrOk]
  refine ⟨h1, h2, by omega,
    (C8_best_effort_serializer (.pdict [(.pstr "k", .pint 1)]) 0 10 h1).1, ?_⟩
  rw [(C8_best_effort_serializer (.pobj [] true) 11 10 h2).2 (by omega)]
  simp [strSerialize, pyStr]

/-- The slots of `DistributedLock` (`sotkalib/redis/locker.py`).  Opaque
runtime objects — the redis factory context manager, the backoff callable —
are identified by natural-number ids; the `exc_args` tuple is a list of
opaque ids; floats are rationals; Python ints are `Int`. -/
structure DistributedLock : Type where
  _redis_factory : Nat
  _is_copy : Bool
  _wait : Bool
  _wait_backoff : Nat
  _wait_timeout : ℚ
  _spin_attempts : Int
  _retry_if_acquired : Bool
  _exc_args : List Nat
  _extend_ttl : Bool
  _watchdog_factor : ℚ
deriving DecidableEq

/-- Model of `DistributedLock.no_wait`: `copy(self)` marked `_is_copy` on an original
instance, in-place mutation on a copy.  Each method below returns the pair
(state of `self` after the call, returned object); in-place mutation shows up
as both components being the same mutated record. -/
def DistributedLock.no_wait (d : DistributedLock) :
    DistributedLock × DistributedLock :=
  if !d._is_copy then
    (d, { d with _is_copy := true, _wait := false })
  else
    let d2 := { d with _wait := false }
    (d2, d2)

/-- Model of `DistributedLock.wait(backoff=…, timeout=…)`. -/
def DistributedLock.wait (d : DistributedLock) (backoff : Nat) (timeout : ℚ) :
    DistributedLock × DistributedLock :=
  if !d._is_copy then
    (d, { d with
      _is_copy := true, _wait := true, _wait_backoff := backoff,
      _wait_timeout := timeout })
  else
    let d2 := { d with
      _wait := true, _wait_backoff := backoff, _wait_timeout := timeout }
    (d2, d2)

/-- Model of `DistributedLock.spin(attempts=…)`. -/
def DistributedLock.spin (d : DistributedLock) (attempts : Int) :
    DistributedLock × DistributedLock :=
  if !d._is_copy then
    (d, { d with _is_copy := true, _spin_attempts := attempts })
  else
    let d2 := { d with _spin_attempts := attempts }
    (d2, d2)

/-- Model of `DistributedLock.if_taken(retry=…)`. -/
def DistributedLock.if_taken (d : DistributedLock) (retry : Bool) :
    DistributedLock × DistributedLock :=
  if !d._is_copy then
    (d, { d with _is_copy := true, _retry_if_acquired := retry })
  else
    let d2 := { d with _retry_if_acquired := retry }
    (d2, d2)

/-- Model of `DistributedLock.if_acquired(retry=…)`: delegates to `if_taken`. -/
def DistributedLock.if_acquired (d : DistributedLock) (retry : Bool) :
    DistributedLock × DistributedLock :=
  d.if_taken retry

/-- Model of `DistributedLock.extend(enabled=…, watchdog_factor=…)`. -/
def DistributedLock.extend (d : DistributedLock) (enabled : Bool)
    (watchdog_factor : ℚ) : DistributedLock × DistributedLock :=
  if !d._is_copy then
    (d, { d with
      _is_copy := true, _extend_ttl := enabled,
      _watchdog_factor := watchdog_factor })
  else
    let d2 := { d with
      _extend_ttl := enabled, _watchdog_factor := watchdog_factor }
    (d2, d2)

/-- Model of `DistributedLock.exc(*args)`. -/
def DistributedLock.exc (d : DistributedLock) (args : List Nat) :
    DistributedLock × DistributedLock :=
  if !d._is_copy then
    (d, { d with _is_copy := true, _exc_args := args })
  else
    let d2 := { d with _exc_args := args }
    (d2, d2)

/-- The slots of `RedisLRU` (`sotkalib/redis/lru/cache.py`); the serializer
and keyfunc objects are identified by ids. -/
structure RedisLRU : Type where
  _redis_factory : Nat
  _version : Int
  _ttl : Int
  _serializer : Nat
  _keyfunc : Nat
  _is_copy : Bool
  _pickle_allowed : Bool
deriving DecidableEq

/-- Model of `RedisLRU.ttl(ttl)`. -/
def RedisLRU.ttl (r : RedisLRU) (t : Int) : RedisLRU × RedisLRU :=
  if !r._is_copy then
    (r, { r with _is_copy := true, _ttl := t })
  else
    let r2 := { r with _ttl := t }
    (r2, r2)

/-- Model of `RedisLRU.version(ver)`. -/
def RedisLRU.version (r : RedisLRU) (ver : Int) : RedisLRU × RedisLRU :=
  if !r._is_copy then
    (r, { r with _is_copy := true, _version := ver })
  else
    let r2 := { r with _version := ver }
    (r2, r2)

/-- Model of `RedisLRU.serializer(szr)`. -/
def RedisLRU.serializer (r : RedisLRU) (szr : Nat) : RedisLRU × RedisLRU :=
  if !r._is_copy then
    (r, { r with _is_copy := true, _serializer := szr })
  else
    let r2 := { r with _serializer := szr }
    (r2, r2)

/-- Model of `RedisLRU.keyfunc(kf)`. -/
def RedisLRU.keyfunc (r : RedisLRU) (kf : Nat) : RedisLRU × RedisLRU :=
  if !r._is_copy then
    (r, { r with _is_copy := true, _keyfunc := kf })
  else
    let r2 := { r with _keyfunc := kf }
    (r2, r2)

/-- C10.  Copy-on-first-write builder methods leave the original untouched:
on an instance not marked as a copy, every configuration method of
`DistributedLock` (`no_wait`, `wait`, `spin`, `if_taken`, `if_acquired`,
`extend`, `exc`) and of `RedisLRU` (`ttl`, `version`, `serializer`,
`keyfunc`) returns a fresh object that is the original with only the
targeted settings changed (and the copy mark set), the original's state
staying exactly as it was; on an instance already marked as a copy, the
method mutates that instance in place — the post-state of `self` and the
returned object coincide — changing only the targeted settings. -/
theorem C10_copy_on_first_write (d : DistributedLock) (r : RedisLRU)
    (backoff : Nat) (timeout : ℚ) (attempts : Int) (retry enabled : Bool)
    (factor : ℚ) (args : List Nat) (t ver : Int) (szr kf : Nat) :
    (d._is_copy = false →
      d.no_wait = (d, { d with
        _is_copy := true, _wait := false })
      ∧ d.wait backoff timeout = (d, { d with
        _is_copy := true, _wait := true, _wait_backoff := backoff,
        _wait_timeout := timeout })
      ∧ d.spin attempts = (d, { d with
        _is_copy := true, _spin_attempts := attempts })
      ∧ d.if_taken retry = (d, { d with
        _is_copy := true, _retry_if_acquired := retry })
      ∧ d.if_acquired retry = (d, { d with
        _is_copy := true, _retry_if_acquired := retry })
      ∧ d.extend enabled factor = (d, { d with
        _is_copy := true, _extend_ttl := enabled, _watchdog_factor := factor })
      ∧ d.exc args = (d, { d with
        _is_copy := true, _exc_args := args }))
    ∧ (d._is_copy = true →
      d.no_wait = ({ d with _wait := false }, { d with _wait := false })
      ∧ d.wait backoff timeout = ({ d with
          _wait := true, _wait_backoff := backoff, _wait_timeout := timeout },
        { d with
          _wait := true, _wait_backoff := backoff, _wait_timeout := timeout })
      ∧ d.spin attempts = ({ d with _spin_attempts := attempts },
        { d with _spin_attempts := attempts })
      ∧ d.if_taken retry = ({ d with _retry_if_acquired := retry },
        { d with _retry_if_acquired := retry })
      ∧ d.if_acquired retry = ({ d with _retry_if_acquired := retry },
        { d with _retry_if_acquired := retry })
      ∧ d.extend enabled factor = ({ d with
          _extend_ttl := enabled, _watchdog_factor := factor },
        { d with _extend_ttl := enabled, _watchdog_factor := factor })
      ∧ d.exc args = ({ d with _exc_args := args },
        { d with _exc_args := args }))
    ∧ (r._is_copy = false →
      r.ttl t = (r, { r with _is_copy := true, _ttl := t })
      ∧ r.version ver = (r, { r with _is_copy := true, _version := ver })
      ∧ r.serializer szr = (r, { r with
          _is_copy := true, _serializer := szr })
      ∧ r.keyfunc kf = (r, { r with _is_copy := true, _keyfunc := kf }))
    ∧ (r._is_copy = true →
      r.ttl t = ({ r with _ttl := t }, { r with _ttl := t })
      ∧ r.version ver = ({ r with _version := ver },
        { r with _version := ver })
      ∧ r.serializer szr = ({ r with _serializer := szr },
        { r with _serializer := szr })
      ∧ r.keyfunc kf = ({ r with _keyfunc := kf },
        { r with _keyfunc := kf })) := by
  refine ⟨fun hc => ?_, fun hc => ?_, fun hc => ?_, fun hc => ?_⟩ <;>
    simp [DistributedLock.no_wait, DistributedLock.wait, DistributedLock.spin,
      DistributedLock.if_taken, DistributedLock.if_acquired,
      DistributedLock.extend, DistributedLock.exc, RedisLRU.ttl,
      RedisLRU.version, RedisLRU.serializer, RedisLRU.keyfunc, hc]

/-- Witness for `C10_copy_on_first_write`: a fresh (non-copy) lock and cache
instance. -/
theorem C10_copy_on_first_write_witness :
    ((DistributedLock.mk 0 false false 1 60 0 false [] true 3)._is_copy = false)
    ∧ ((RedisLRU.mk 0 1 600 2 3 false false)._is_copy = false)
    ∧ ((DistributedLock.mk 0 false false 1 60 0 false [] true 3).no_wait
      = (DistributedLock.mk 0 false false 1 60 0 false [] true 3,
         DistributedLock.mk 0 true false 1 60 0 false [] true 3))
    ∧ ((RedisLRU.mk 0 1 600 2 3 false false).ttl 30
      = (RedisLRU.mk 0 1 600 2 3 false false,
         RedisLRU.mk 0 1 30 2 3 true false)) := by
  have h := C10_copy_on_first_write
    (DistributedLock.mk 0 false false 1 60 0 false [] true 3)
    (RedisLRU.mk 0 1 600 2 3 false false) 1 60 0 false false 3 [] 30 1 2 3
  refine ⟨rfl, rfl, ?_, ?_⟩
  · exact (h.1 rfl).1
  · exact (h.2.2.1 rfl).1
